import Mathlib

/-!
Verification of `init_workflow.py` (SWOT-Confluence/init_workflow).

The program is sequential I/O orchestration: it provisions a fixed EFS
directory tree, mirrors objects from S3 buckets into that tree, republishes
two derived files, and (per the specification) optionally purges a map-state
bucket.  We embed it shallowly:

* filesystem paths are strings; the set of existing filesystem entries
  (files and directories alike, as seen by `pathlib.Path.exists`) is a
  `List String`;
* `pathlib.Path.mkdir(parents, exist_ok)` becomes `mkdir`, which may fail
  (`Except Unit`) exactly when pathlib raises `FileExistsError` /
  `FileNotFoundError` on an existing path or missing parent;
* every S3 request the program issues is recorded as an `S3Call`, and every
  log line as a `LogMsg`; the paginated `list_objects_v2` results are a
  parameter `listing : String → String → List (Option (List String))`
  (bucket → key-prefix → pages, where a page's `Contents` entry may be
  absent, modelled as `none`).
-/

/-- `pathlib.Path.joinpath`: join a directory path and a (possibly
slash-containing) relative key with a `/` separator. -/
def pjoin (d : String) (k : String) : String :=
  d ++ "/" ++ k

/-- `pathlib.Path.parent`: drop the final path component (everything from
the last `/` on).  A path with no `/` has parent `""` in this model. -/
def parentPath (p : String) : String :=
  ⟨(((p.data.reverse.dropWhile (fun c => ¬ (c = '/'))).drop 1)).reverse⟩

/-- All ancestor directories of `p` (the proper prefixes of `p` that end
just before a `/`), together with `p` itself: the set of directories that
`mkdir(parents=True)` guarantees to exist afterwards. -/
def pathClosure (p : String) : List String :=
  ((List.range p.data.length).filterMap
    (fun i => if p.data.get? i = some '/' then some ⟨p.data.take i⟩ else none))
    ++ [p]

/-- `pathlib.Path.mkdir(parents, exist_ok)` acting on the set `fs` of
existing filesystem entries.  Errors exactly when pathlib raises: the path
already exists and `exist_ok` is false, or a parent is missing and
`parents` is false. -/
def mkdir (parents exist_ok : Bool) (p : String) (fs : List String) :
    Except Unit (List String) :=
  if p ∈ fs then
    if exist_ok then Except.ok fs else Except.error ()
  else if parents then Except.ok (fs ++ pathClosure p)
  else if parentPath p ∈ fs then Except.ok (p :: fs)
  else Except.error ()

/-- The effect of `mkdir(parents=True, exist_ok=True)`, which never fails. -/
def mkdirTT (p : String) (fs : List String) : List String :=
  if p ∈ fs then fs else fs ++ pathClosure p

-- Constants of the source module.

def EFS_DIR_INPUT : String := "/mnt/input"
def EFS_DIR_FLPE : String := "/mnt/flpe"
def EFS_DIR_MOI : String := "/mnt/moi"
def EFS_DIR_DIAGNOSTICS : String := "/mnt/diagnostics"
def EFS_DIR_OFFLINE : String := "/mnt/offline"
def EFS_DIR_VALIDATION : String := "/mnt/validation"
def EFS_DIR_OUTPUT : String := "/mnt/output"
def EFS_DIR_LOGS : String := "/mnt/logs"
def SWORD_PATCHES_NAME : String := "sword_patches_v216.json"
def SWORD_PATCHES : String := pjoin EFS_DIR_INPUT SWORD_PATCHES_NAME

/-- The directory paths `set_up_efs` creates, one per `mkdir` statement of
the source, in source order. -/
def efs_targets : List String :=
  [ pjoin EFS_DIR_INPUT "gage",
    pjoin (pjoin EFS_DIR_INPUT "gage") "Rtarget",
    pjoin (pjoin EFS_DIR_INPUT "ssc") "model_static_files",
    pjoin (pjoin EFS_DIR_INPUT "lakeflow") "ancillary",
    pjoin EFS_DIR_INPUT "sos",
    pjoin EFS_DIR_INPUT "sword",
    pjoin EFS_DIR_INPUT "swot",
    pjoin EFS_DIR_INPUT "ssc/model_static_files/nd_20250430/gl_20250522_2_m1",
    pjoin EFS_DIR_INPUT "ssc/model_static_files/nd_20250430/gl_20250522_2_m2",
    pjoin EFS_DIR_FLPE "geobam",
    pjoin EFS_DIR_FLPE "hivdi",
    pjoin EFS_DIR_FLPE "metroman",
    pjoin (pjoin EFS_DIR_FLPE "metroman") "sets",
    pjoin EFS_DIR_FLPE "momma",
    pjoin EFS_DIR_FLPE "sad",
    pjoin EFS_DIR_FLPE "sic4dvar",
    pjoin EFS_DIR_FLPE "ssc",
    pjoin EFS_DIR_FLPE "lakeflow",
    pjoin EFS_DIR_DIAGNOSTICS "prediagnostics",
    pjoin (pjoin EFS_DIR_DIAGNOSTICS "postdiagnostics") "basin",
    pjoin (pjoin EFS_DIR_DIAGNOSTICS "postdiagnostics") "reach",
    pjoin EFS_DIR_VALIDATION "figs",
    pjoin EFS_DIR_VALIDATION "stats",
    pjoin EFS_DIR_OUTPUT "sos",
    pjoin EFS_DIR_LOGS "sic4dvar" ]

/-- `set_up_efs`: run `mkdir(parents=True, exist_ok=True)` on each target
path in source order, propagating any error. -/
def set_up_efs (fs : List String) : Except Unit (List String) :=
  efs_targets.foldlM (fun s p => mkdir true true p s) fs

/-- The pure result of `set_up_efs` (it never fails; see
`set_up_efs_eq_ok`). -/
def setupRun (fs : List String) : List String :=
  efs_targets.foldl (fun s p => mkdirTT p s) fs

-- The observable S3 requests and log lines.

/-- One S3 request issued by the program. -/
inductive S3Call where
  | download (bucket key dest : String)
  | upload (src bucket key : String) (sse : Option String)
  | deleteObjects (bucket : String) (keys : List String)
  deriving DecidableEq

/-- One log line emitted by the program. -/
inductive LogMsg where
  | downloaded (bucket key dest : String)
  | uploaded (src bucket key : String)
  | notDownloading (dest : String)
  | noItems (bucket pfx : String)
  | deleted (bucket key : String)
  deriving DecidableEq

/-- The accumulation loop over paginator pages in `download_directory`:
`page.get("Contents", None)` is falsy when absent (`none`) or empty, and
each `content["Key"]` is appended to `items` otherwise. -/
def collect_items (pages : List (Option (List String))) : List String :=
  pages.foldl
    (fun acc page =>
      match page with
      | some contents => if contents.isEmpty then acc else acc ++ contents
      | none => acc)
    []

/-- The per-item loop of `download_directory`: for each key, if the
destination `efs_dir.joinpath(item)` does not exist, create its parent
directory chain, download (which creates the destination file) and log;
otherwise only log that the file is not downloaded.  Returns the S3 calls,
the log lines, and the final filesystem. -/
def process_items (bucket d : String) :
    List String → List String → List S3Call × List LogMsg × List String
  | [], fs => ([], [], fs)
  | item :: rest, fs =>
    let efs_file := pjoin d item
    if efs_file ∈ fs then
      let r := process_items bucket d rest fs
      (r.1, LogMsg.notDownloading efs_file :: r.2.1, r.2.2)
    else
      let fs2 := efs_file :: mkdirTT (parentPath efs_file) fs
      let r := process_items bucket d rest fs2
      (S3Call.download bucket item efs_file :: r.1,
       LogMsg.downloaded bucket item efs_file :: r.2.1,
       r.2.2)

/-- `download_directory(config_bucket, prefix, efs_dir)`: gather every key
from every page of the paginated listing, process each item, and log when
the accumulated item list is empty. -/
def download_directory (listing : String → String → List (Option (List String)))
    (config_bucket pfx d : String) (fs : List String) :
    List S3Call × List LogMsg × List String :=
  let items := collect_items (listing config_bucket pfx)
  let r := process_items config_bucket d items fs
  if items.length = 0 then
    (r.1, r.2.1 ++ [LogMsg.noItems config_bucket pfx], r.2.2)
  else r

/-- `download_data(prefix, reaches_of_interest)`: unconditionally fetch the
reaches-of-interest file (when named) and `continent-setfinder.json` from
`{prefix}-config` and republish both to `{prefix}-json` with
server-side encryption; fetch the sword-patches file only when absent
locally; then mirror the five fixed key prefixes. -/
def download_data (listing : String → String → List (Option (List String)))
    (pfx roi : String) (fs : List String) :
    List S3Call × List LogMsg × List String :=
  let config_bucket := pfx ++ "-config"
  let json_bucket := pfx ++ "-json"
  let roiStep :=
    if roi = "" then (([] : List S3Call), ([] : List LogMsg), fs)
    else
      let roiPath := pjoin EFS_DIR_INPUT roi
      ([S3Call.download config_bucket roi roiPath,
        S3Call.upload roiPath json_bucket roi (some "aws:kms")],
       [LogMsg.downloaded config_bucket roi roiPath,
        LogMsg.uploaded roiPath json_bucket roi],
       roiPath :: fs)
  let contPath := pjoin EFS_DIR_INPUT "continent-setfinder.json"
  let contCalls : List S3Call :=
    [S3Call.download config_bucket "continent-setfinder.json" contPath,
     S3Call.upload contPath json_bucket "continent-setfinder.json" (some "aws:kms")]
  let contLogs : List LogMsg :=
    [LogMsg.downloaded config_bucket "continent-setfinder.json" contPath,
     LogMsg.uploaded contPath json_bucket "continent-setfinder.json"]
  let fs2 := contPath :: roiStep.2.2
  let swordStep :=
    if SWORD_PATCHES ∈ fs2 then (([] : List S3Call), ([] : List LogMsg), fs2)
    else
      ([S3Call.download config_bucket SWORD_PATCHES_NAME SWORD_PATCHES],
       [LogMsg.downloaded config_bucket SWORD_PATCHES_NAME SWORD_PATCHES],
       SWORD_PATCHES :: fs2)
  let r1 := download_directory listing config_bucket "gage" EFS_DIR_INPUT swordStep.2.2
  let r2 := download_directory listing config_bucket "sword" EFS_DIR_INPUT r1.2.2
  let r3 := download_directory listing config_bucket "ssc" EFS_DIR_INPUT r2.2.2
  let r4 := download_directory listing config_bucket "lakeflow" EFS_DIR_INPUT r3.2.2
  let r5 := download_directory listing config_bucket "sos" EFS_DIR_INPUT r4.2.2
  (roiStep.1 ++ contCalls ++ swordStep.1 ++ r1.1 ++ r2.1 ++ r3.1 ++ r4.1 ++ r5.1,
   roiStep.2.1 ++ contLogs ++ swordStep.2.1
     ++ r1.2.1 ++ r2.2.1 ++ r3.2.1 ++ r4.2.1 ++ r5.2.1,
   r5.2.2)

/-- One argparse argument declaration. -/
structure ArgSpec where
  short : String
  long : String
  isFlag : Bool
  dflt : Option String
  deriving DecidableEq

/-- `create_args`: the two arguments the parser declares, in source
order.  `--prefix` is a plain string with no default; `--reachsubset` is a
string defaulting to `""`. -/
def create_args : List ArgSpec :=
  [ ⟨"-p", "--prefix", false, none⟩,
    ⟨"-r", "--reachsubset", false, some ""⟩ ]

/-- `init_workflow`: set up the EFS directories, then download the
required data; a filesystem error during provisioning propagates. -/
def init_workflow (listing : String → String → List (Option (List String)))
    (pfx roi : String) (fs : List String) :
    Except Unit (List S3Call × List LogMsg × List String) :=
  (set_up_efs fs).map (fun fs1 => download_data listing pfx roi fs1)

/-- Modelled from the spec: the State Purger (`delete_map_state`) does not
appear in the source tree; per the specification it lists all objects of
the map-state bucket across all pages, issues no delete call when the key
count is zero, and otherwise collects every key into one batch and issues
a single bulk-delete call, then logs each deleted key. -/
def delete_map_state (pages : List (List String)) (bucket : String) :
    List S3Call × List LogMsg :=
  let keys := pages.flatten
  if keys.length = 0 then ([], [])
  else ([S3Call.deleteObjects bucket keys], keys.map (fun k => LogMsg.deleted bucket k))

/-! ### Basic path lemmas -/

theorem string_data_append (a b : String) : (a ++ b).data = a.data ++ b.data := by
  cases a; cases b; rfl

theorem pjoin_inj (d : String) {a b : String} (h : pjoin d a = pjoin d b) : a = b := by
  unfold pjoin at h
  have h2 : (d ++ "/" ++ a).data = (d ++ "/" ++ b).data := by rw [h]
  rw [string_data_append, string_data_append] at h2
  exact congrArg String.mk (List.append_cancel_left h2)

theorem mem_pathClosure_self (p : String) : p ∈ pathClosure p := by
  unfold pathClosure
  exact List.mem_append_right _ (List.mem_singleton.mpr rfl)

/-! ### `mkdir` lemmas -/

theorem mkdir_true_true (p : String) (fs : List String) :
    mkdir true true p fs = Except.ok (mkdirTT p fs) := by
  unfold mkdir mkdirTT
  by_cases h : p ∈ fs <;> simp [h]

theorem mkdirTT_mono (p : String) {fs : List String} {a : String} (h : a ∈ fs) :
    a ∈ mkdirTT p fs := by
  unfold mkdirTT
  by_cases hp : p ∈ fs <;> simp [hp, h]

theorem mem_mkdirTT_self (p : String) (fs : List String) : p ∈ mkdirTT p fs := by
  unfold mkdirTT
  by_cases hp : p ∈ fs
  · rw [if_pos hp]; exact hp
  · rw [if_neg hp]; exact List.mem_append_right _ (mem_pathClosure_self p)

theorem mkdirTT_of_mem {p : String} {fs : List String} (h : p ∈ fs) :
    mkdirTT p fs = fs := by
  unfold mkdirTT
  simp [h]

theorem mem_of_mem_mkdirTT {p a : String} {fs : List String}
    (h : a ∈ mkdirTT p fs) : a ∈ fs ∨ a ∈ pathClosure p := by
  unfold mkdirTT at h
  by_cases hp : p ∈ fs
  · simp [hp] at h; exact Or.inl h
  · simp [hp] at h; exact h

/-! ### `set_up_efs` lemmas -/

theorem foldlM_mkdir_eq_ok (l : List String) :
    ∀ fs : List String,
      l.foldlM (fun s p => mkdir true true p s) fs
        = Except.ok (l.foldl (fun s p => mkdirTT p s) fs) := by
  induction l with
  | nil => intro fs; rfl
  | cons p rest ih =>
      intro fs
      rw [List.foldlM_cons, mkdir_true_true]
      simpa using ih (mkdirTT p fs)

theorem set_up_efs_eq_ok (fs : List String) :
    set_up_efs fs = Except.ok (setupRun fs) :=
  foldlM_mkdir_eq_ok efs_targets fs

theorem foldl_mkdirTT_mem_preserve (l : List String) :
    ∀ {fs : List String} {a : String}, a ∈ fs →
      a ∈ l.foldl (fun s p => mkdirTT p s) fs := by
  induction l with
  | nil => intro fs a h; simpa using h
  | cons p rest ih =>
      intro fs a h
      exact ih (mkdirTT_mono p h)

theorem foldl_mkdirTT_targets_mem (l : List String) :
    ∀ {fs : List String} {p : String}, p ∈ l →
      p ∈ l.foldl (fun s q => mkdirTT q s) fs := by
  induction l with
  | nil => intro fs p h; cases h
  | cons q rest ih =>
      intro fs p h
      rcases List.mem_cons.mp h with h1 | h2
      · subst h1
        exact foldl_mkdirTT_mem_preserve rest (mem_mkdirTT_self p fs)
      · exact ih h2

theorem foldl_mkdirTT_fixed (l : List String) :
    ∀ {fs : List String}, (∀ p ∈ l, p ∈ fs) →
      l.foldl (fun s q => mkdirTT q s) fs = fs := by
  induction l with
  | nil => intro fs _; rfl
  | cons q rest ih =>
      intro fs h
      have hq : q ∈ fs := h q (List.mem_cons_self q rest)
      have : mkdirTT q fs = fs := mkdirTT_of_mem hq
      rw [List.foldl_cons, this]
      exact ih (fun p hp => h p (List.mem_cons_of_mem q hp))

/-! ### `process_items` and `download_directory` lemmas -/

theorem process_items_fs_mono (b d : String) :
    ∀ (items fs : List String) {a : String}, a ∈ fs →
      a ∈ (process_items b d items fs).2.2 := by
  intro items
  induction items with
  | nil => intro fs a h; simpa [process_items] using h
  | cons item rest ih =>
      intro fs a h
      by_cases hm : pjoin d item ∈ fs
      · simp only [process_items, if_pos hm]
        exact ih fs h
      · simp only [process_items, if_neg hm]
        exact ih _ (List.mem_cons_of_mem _ (mkdirTT_mono _ h))

theorem process_items_skip (b d k : String) :
    ∀ (items fs : List String), pjoin d k ∈ fs →
      S3Call.download b k (pjoin d k) ∉ (process_items b d items fs).1 := by
  intro items
  induction items with
  | nil => intro fs _; simp [process_items]
  | cons item rest ih =>
      intro fs h
      by_cases hm : pjoin d item ∈ fs
      · simp only [process_items, if_pos hm]
        exact ih fs h
      · simp only [process_items, if_neg hm]
        intro hc
        rcases List.mem_cons.mp hc with hc | hc
        · have hk : k = item := by
            have := (S3Call.download.injEq _ _ _ _ _ _).mp hc
            exact this.2.1
          rw [hk] at h
          exact hm h
        · exact ih _ (List.mem_cons_of_mem _ (mkdirTT_mono _ h)) hc

theorem download_directory_calls
    (listing : String → String → List (Option (List String)))
    (b p d : String) (fs : List String) :
    (download_directory listing b p d fs).1
      = (process_items b d (collect_items (listing b p)) fs).1 := by
  simp only [download_directory]
  split
  · rfl
  · rfl

theorem download_directory_fs
    (listing : String → String → List (Option (List String)))
    (b p d : String) (fs : List String) :
    (download_directory listing b p d fs).2.2
      = (process_items b d (collect_items (listing b p)) fs).2.2 := by
  simp only [download_directory]
  split
  · rfl
  · rfl

theorem download_directory_fs_mono
    (listing : String → String → List (Option (List String)))
    (b p d : String) (fs : List String) {a : String} (h : a ∈ fs) :
    a ∈ (download_directory listing b p d fs).2.2 := by
  rw [download_directory_fs]
  exact process_items_fs_mono b d _ fs h

theorem download_directory_skip
    (listing : String → String → List (Option (List String)))
    (b p d k : String) (fs : List String) (h : pjoin d k ∈ fs) :
    S3Call.download b k (pjoin d k) ∉ (download_directory listing b p d fs).1 := by
  rw [download_directory_calls]
  exact process_items_skip b d k _ fs h

theorem collect_items_go (pages : List (Option (List String))) :
    ∀ acc : List String,
      pages.foldl
        (fun acc page =>
          match page with
          | some contents => if contents.isEmpty then acc else acc ++ contents
          | none => acc)
        acc
      = acc ++ (pages.filterMap id).flatten := by
  induction pages with
  | nil => intro acc; simp
  | cons page rest ih =>
      intro acc
      cases page with
      | none => simpa using ih acc
      | some contents =>
          by_cases hc : contents.isEmpty
          · have hnil : contents = [] := by simpa using hc
            subst hnil
            simpa [hc] using ih acc
          · simp only [List.foldl_cons, hc, if_neg, Bool.false_eq_true,
              not_false_iff, List.filterMap_cons, id]
            rw [ih (acc ++ contents)]
            simp [List.append_assoc]

theorem collect_items_eq (pages : List (Option (List String))) :
    collect_items pages = (pages.filterMap id).flatten := by
  simpa [collect_items] using collect_items_go pages []

theorem process_items_count (b d : String) :
    ∀ (items fs : List String), items.Nodup →
      (∀ k1 ∈ items, ∀ k2 ∈ items,
        pjoin d k2 ∉ pathClosure (parentPath (pjoin d k1))) →
      (process_items b d items fs).1.length
        + (items.filter (fun k => decide (pjoin d k ∈ fs))).length
        = items.length := by
  intro items
  induction items with
  | nil => intro fs _ _; simp [process_items]
  | cons item rest ih =>
      intro fs hnd hni
      have hnd' := List.nodup_cons.mp hnd
      by_cases hm : pjoin d item ∈ fs
      · have hih := ih fs hnd'.2
          (fun k1 hk1 k2 hk2 =>
            hni k1 (List.mem_cons_of_mem _ hk1) k2 (List.mem_cons_of_mem _ hk2))
        simp only [process_items, if_pos hm]
        rw [List.filter_cons_of_pos (by simpa using hm)]
        simp only [List.length_cons]
        omega
      · have hiff : ∀ k ∈ rest, (pjoin d k ∈
            (pjoin d item :: mkdirTT (parentPath (pjoin d item)) fs)) ↔
            (pjoin d k ∈ fs) := by
          intro k hk
          constructor
          · intro hmem
            rcases List.mem_cons.mp hmem with he | hmk
            · exact absurd (pjoin_inj d he ▸ hk) hnd'.1
            · rcases mem_of_mem_mkdirTT hmk with hfs | hcl
              · exact hfs
              · exact absurd hcl
                  (hni item (List.mem_cons_self item rest) k
                    (List.mem_cons_of_mem _ hk))
          · intro hmem
            exact List.mem_cons_of_mem _ (mkdirTT_mono _ hmem)
        have hfil : rest.filter
              (fun k => decide (pjoin d k ∈
                (pjoin d item :: mkdirTT (parentPath (pjoin d item)) fs)))
            = rest.filter (fun k => decide (pjoin d k ∈ fs)) :=
          List.filter_congr (fun k hk => decide_eq_decide.mpr (hiff k hk))
        have hih := ih (pjoin d item :: mkdirTT (parentPath (pjoin d item)) fs)
          hnd'.2
          (fun k1 hk1 k2 hk2 =>
            hni k1 (List.mem_cons_of_mem _ hk1) k2 (List.mem_cons_of_mem _ hk2))
        rw [hfil] at hih
        simp only [process_items, if_neg hm]
        rw [List.filter_cons_of_neg (by simpa using hm)]
        simp only [List.length_cons]
        omega

theorem download_data_cont_mem
    (listing : String → String → List (Option (List String)))
    (pfx roi : String) (fs : List String) :
    S3Call.download (pfx ++ "-config") "continent-setfinder.json"
      (pjoin EFS_DIR_INPUT "continent-setfinder.json")
      ∈ (download_data listing pfx roi fs).1 := by
  simp only [download_data]
  by_cases hroi : roi = "" <;> simp [hroi, List.mem_append]

theorem download_data_roi_mem
    (listing : String → String → List (Option (List String)))
    (pfx roi : String) (fs : List String) (hroi : roi ≠ "") :
    S3Call.download (pfx ++ "-config") roi (pjoin EFS_DIR_INPUT roi)
      ∈ (download_data listing pfx roi fs).1 := by
  simp only [download_data]
  simp [hroi, List.mem_append]

theorem download_data_sword_not_mem
    (listing : String → String → List (Option (List String)))
    (pfx roi : String) (fs : List String)
    (hname : roi ≠ SWORD_PATCHES_NAME) (hmem : SWORD_PATCHES ∈ fs) :
    S3Call.download (pfx ++ "-config") SWORD_PATCHES_NAME SWORD_PATCHES
      ∉ (download_data listing pfx roi fs).1 := by
  simp only [download_data]
  by_cases hroi : roi = ""
  · have h2 : SWORD_PATCHES ∈
        pjoin EFS_DIR_INPUT "continent-setfinder.json" :: fs :=
      List.mem_cons_of_mem _ hmem
    have m1 := download_directory_fs_mono listing (pfx ++ "-config") "gage"
      EFS_DIR_INPUT _ h2
    have m2 := download_directory_fs_mono listing (pfx ++ "-config") "sword"
      EFS_DIR_INPUT _ m1
    have m3 := download_directory_fs_mono listing (pfx ++ "-config") "ssc"
      EFS_DIR_INPUT _ m2
    have m4 := download_directory_fs_mono listing (pfx ++ "-config") "lakeflow"
      EFS_DIR_INPUT _ m3
    simp only [hroi, if_pos, if_neg, reduceIte, h2, List.mem_append]
    rintro (((((((h | h) | h) | h) | h) | h) | h) | h)
    · exact absurd h (List.not_mem_nil _)
    · simp [SWORD_PATCHES_NAME] at h
    · exact absurd h (List.not_mem_nil _)
    · exact download_directory_skip listing (pfx ++ "-config") "gage"
        EFS_DIR_INPUT SWORD_PATCHES_NAME _ h2 h
    · exact download_directory_skip listing (pfx ++ "-config") "sword"
        EFS_DIR_INPUT SWORD_PATCHES_NAME _ m1 h
    · exact download_directory_skip listing (pfx ++ "-config") "ssc"
        EFS_DIR_INPUT SWORD_PATCHES_NAME _ m2 h
    · exact download_directory_skip listing (pfx ++ "-config") "lakeflow"
        EFS_DIR_INPUT SWORD_PATCHES_NAME _ m3 h
    · exact download_directory_skip listing (pfx ++ "-config") "sos"
        EFS_DIR_INPUT SWORD_PATCHES_NAME _ m4 h
  · have h2 : SWORD_PATCHES ∈
        pjoin EFS_DIR_INPUT "continent-setfinder.json"
          :: pjoin EFS_DIR_INPUT roi :: fs :=
      List.mem_cons_of_mem _ (List.mem_cons_of_mem _ hmem)
    have m1 := download_directory_fs_mono listing (pfx ++ "-config") "gage"
      EFS_DIR_INPUT _ h2
    have m2 := download_directory_fs_mono listing (pfx ++ "-config") "sword"
      EFS_DIR_INPUT _ m1
    have m3 := download_directory_fs_mono listing (pfx ++ "-config") "ssc"
      EFS_DIR_INPUT _ m2
    have m4 := download_directory_fs_mono listing (pfx ++ "-config") "lakeflow"
      EFS_DIR_INPUT _ m3
    simp only [hroi, if_pos, if_neg, reduceIte, h2, List.mem_append]
    rintro (((((((h | h) | h) | h) | h) | h) | h) | h)
    · rcases List.mem_cons.mp h with h | h
      · have := ((S3Call.download.injEq _ _ _ _ _ _).mp h).2.1
        exact hname this.symm
      · simp at h
    · simp [SWORD_PATCHES_NAME] at h
    · exact absurd h (List.not_mem_nil _)
    · exact download_directory_skip listing (pfx ++ "-config") "gage"
        EFS_DIR_INPUT SWORD_PATCHES_NAME _ h2 h
    · exact download_directory_skip listing (pfx ++ "-config") "sword"
        EFS_DIR_INPUT SWORD_PATCHES_NAME _ m1 h
    · exact download_directory_skip listing (pfx ++ "-config") "ssc"
        EFS_DIR_INPUT SWORD_PATCHES_NAME _ m2 h
    · exact download_directory_skip listing (pfx ++ "-config") "lakeflow"
        EFS_DIR_INPUT SWORD_PATCHES_NAME _ m3 h
    · exact download_directory_skip listing (pfx ++ "-config") "sos"
        EFS_DIR_INPUT SWORD_PATCHES_NAME _ m4 h

theorem download_data_sword_mem
    (listing : String → String → List (Option (List String)))
    (pfx roi : String) (fs : List String)
    (hname : roi ≠ SWORD_PATCHES_NAME) (hmem : SWORD_PATCHES ∉ fs) :
    S3Call.download (pfx ++ "-config") SWORD_PATCHES_NAME SWORD_PATCHES
      ∈ (download_data listing pfx roi fs).1 := by
  simp only [download_data]
  by_cases hroi : roi = ""
  · have h2 : SWORD_PATCHES ∉
        pjoin EFS_DIR_INPUT "continent-setfinder.json" :: fs := by
      intro hc
      rcases List.mem_cons.mp hc with hc | hc
      · exact absurd hc (by decide)
      · exact hmem hc
    simp [hroi, h2, List.mem_append]
  · have h2 : SWORD_PATCHES ∉
        pjoin EFS_DIR_INPUT "continent-setfinder.json"
          :: pjoin EFS_DIR_INPUT roi :: fs := by
      intro hc
      rcases List.mem_cons.mp hc with hc | hc
      · exact absurd hc (by decide)
      · rcases List.mem_cons.mp hc with hc | hc
        · exact hname (pjoin_inj EFS_DIR_INPUT hc).symm
        · exact hmem hc
    simp [hroi, h2, List.mem_append]

theorem download_data_roi_upload_mem
    (listing : String → String → List (Option (List String)))
    (pfx roi : String) (fs : List String) (hroi : roi ≠ "") :
    S3Call.upload (pjoin EFS_DIR_INPUT roi) (pfx ++ "-json") roi (some "aws:kms")
      ∈ (download_data listing pfx roi fs).1 := by
  simp only [download_data]
  simp [hroi, List.mem_append]

theorem download_data_cont_upload_mem
    (listing : String → String → List (Option (List String)))
    (pfx roi : String) (fs : List String) :
    S3Call.upload (pjoin EFS_DIR_INPUT "continent-setfinder.json")
      (pfx ++ "-json") "continent-setfinder.json" (some "aws:kms")
      ∈ (download_data listing pfx roi fs).1 := by
  simp only [download_data]
  by_cases hroi : roi = "" <;> simp [hroi, List.mem_append]

/-! ### Claims -/

/-- C1: in a prefix fetch (`download_directory`), for every object key
returned by the paginated listing, if the local destination file (the
destination root joined with the full key) already exists before the
fetch, then no remote download call is issued for that key. -/
theorem claim_c1
    (listing : String → String → List (Option (List String)))
    (b p d k : String) (fs : List String)
    (_hk : k ∈ collect_items (listing b p))
    (hex : pjoin d k ∈ fs) :
    S3Call.download b k (pjoin d k) ∉ (download_directory listing b p d fs).1 :=
  download_directory_skip listing b p d k fs hex

/-- Witness for C1 at a concrete listing and a pre-existing destination. -/
theorem claim_c1_witness :
    "gage/x.nc" ∈ collect_items
        ((fun _ _ => [some ["gage/x.nc"]]) "b" "gage")
    ∧ pjoin "/mnt/input" "gage/x.nc" ∈ ["/mnt/input/gage/x.nc"]
    ∧ S3Call.download "b" "gage/x.nc" (pjoin "/mnt/input" "gage/x.nc")
        ∉ (download_directory (fun _ _ => [some ["gage/x.nc"]]) "b" "gage"
            "/mnt/input" ["/mnt/input/gage/x.nc"]).1 :=
  ⟨by decide, by decide,
   claim_c1 (fun _ _ => [some ["gage/x.nc"]]) "b" "gage" "/mnt/input"
     "gage/x.nc" ["/mnt/input/gage/x.nc"] (by decide) (by decide)⟩

/-- C2: running the Directory Provisioner (`set_up_efs`) twice in
succession produces the same set of directories and the second run raises
no error; the provisioner succeeds from any initial filesystem state
(absent, partially present, or fully present paths). -/
theorem claim_c2 (fs : List String) :
    ∃ fs', set_up_efs fs = Except.ok fs' ∧ set_up_efs fs' = Except.ok fs' := by
  refine ⟨setupRun fs, set_up_efs_eq_ok fs, ?_⟩
  rw [set_up_efs_eq_ok]
  have hfix : setupRun (setupRun fs) = setupRun fs := by
    unfold setupRun
    exact foldl_mkdirTT_fixed efs_targets
      (fun p hp => foldl_mkdirTT_targets_mem efs_targets hp)
  rw [hfix]

/-- C3 counterexample: a two-page listing with keys `a/b` then `a` and no
pre-existing destination yields one download, not two: the parent
directory `/mnt/input/a` created for key `a/b` makes the destination of
key `a` exist, so the claimed count `total keys - pre-existing keys`
fails. -/
theorem claim_c3_cex :
    (collect_items [some ["a/b"], some ["a"]]).length = 2
    ∧ ((collect_items [some ["a/b"], some ["a"]]).filter
        (fun k => decide (pjoin "/mnt/input" k ∈ ([] : List String)))).length = 0
    ∧ (download_directory (fun _ _ => [some ["a/b"], some ["a"]]) "b" "a"
        "/mnt/input" []).1.length = 1
    ∧ (download_directory (fun _ _ => [some ["a/b"], some ["a"]]) "b" "a"
        "/mnt/input" []).1.length
      ≠ (collect_items [some ["a/b"], some ["a"]]).length
        - ((collect_items [some ["a/b"], some ["a"]]).filter
            (fun k => decide (pjoin "/mnt/input" k ∈ ([] : List String)))).length :=
  by decide

/-- C3 (amended): the item list of a prefix fetch is the concatenation of
the keys of all listing pages, and — provided the listed keys are pairwise
distinct and no listed key's destination coincides with an ancestor
directory created for another key's destination — the number of download
calls equals the total number of keys across all pages minus the number of
keys whose destination file already exists. -/
theorem claim_c3
    (listing : String → String → List (Option (List String)))
    (b p d : String) (fs : List String)
    (hnd : (collect_items (listing b p)).Nodup)
    (hni : ∀ k1 ∈ collect_items (listing b p), ∀ k2 ∈ collect_items (listing b p),
      pjoin d k2 ∉ pathClosure (parentPath (pjoin d k1))) :
    collect_items (listing b p) = ((listing b p).filterMap id).flatten
    ∧ (download_directory listing b p d fs).1.length
        = (collect_items (listing b p)).length
          - ((collect_items (listing b p)).filter
              (fun k => decide (pjoin d k ∈ fs))).length := by
  constructor
  · exact collect_items_eq _
  · rw [download_directory_calls]
    have h := process_items_count b d (collect_items (listing b p)) fs hnd hni
    have hle := List.length_filter_le
      (fun k => decide (pjoin d k ∈ fs)) (collect_items (listing b p))
    omega

/-- Witness for C3 at a three-page listing with one pre-existing
destination: two downloads out of three keys. -/
theorem claim_c3_witness :
    (collect_items [some ["gage/a.nc", "sword/b.nc"], none, some ["ssc/c.nc"]]).Nodup
    ∧ (download_directory
        (fun _ _ => [some ["gage/a.nc", "sword/b.nc"], none, some ["ssc/c.nc"]])
        "b" "gage" "/mnt/input" ["/mnt/input/sword/b.nc"]).1.length
      = (collect_items [some ["gage/a.nc", "sword/b.nc"], none, some ["ssc/c.nc"]]).length
        - ((collect_items [some ["gage/a.nc", "sword/b.nc"], none, some ["ssc/c.nc"]]).filter
            (fun k => decide (pjoin "/mnt/input" k ∈ ["/mnt/input/sword/b.nc"]))).length :=
  ⟨by decide,
   (claim_c3 (fun _ _ => [some ["gage/a.nc", "sword/b.nc"], none, some ["ssc/c.nc"]])
     "b" "gage" "/mnt/input" ["/mnt/input/sword/b.nc"]
     (by decide) (by decide)).2⟩

/-- C4 counterexample: the `continent-setfinder.json` single-object fetch
downloads (and thus overwrites) even when the local mirror file already
exists, so "an Object Fetcher never overwrites a Local Mirror File that
already exists" fails for single-object fetches. -/
theorem claim_c4_cex :
    S3Call.download ("p" ++ "-config") "continent-setfinder.json"
      (pjoin EFS_DIR_INPUT "continent-setfinder.json")
      ∈ (download_data (fun _ _ => []) "p" ""
          [pjoin EFS_DIR_INPUT "continent-setfinder.json"]).1 := by decide

/-- C4 (amended): prefix fetches never download to a destination that
already existed, and the sword-patches single-object fetch is skipped
when its local file exists; but the reaches-of-interest and
`continent-setfinder.json` single-object fetches are issued
unconditionally, overwriting any existing local file. -/
theorem claim_c4
    (listing : String → String → List (Option (List String)))
    (pfx roi : String) (fs : List String)
    (hname : roi ≠ SWORD_PATCHES_NAME) :
    (∀ (b p d k : String) (fs0 : List String), pjoin d k ∈ fs0 →
      S3Call.download b k (pjoin d k) ∉ (download_directory listing b p d fs0).1)
    ∧ (SWORD_PATCHES ∈ fs →
        S3Call.download (pfx ++ "-config") SWORD_PATCHES_NAME SWORD_PATCHES
          ∉ (download_data listing pfx roi fs).1)
    ∧ S3Call.download (pfx ++ "-config") "continent-setfinder.json"
        (pjoin EFS_DIR_INPUT "continent-setfinder.json")
        ∈ (download_data listing pfx roi fs).1
    ∧ (roi ≠ "" →
        S3Call.download (pfx ++ "-config") roi (pjoin EFS_DIR_INPUT roi)
          ∈ (download_data listing pfx roi fs).1) :=
  ⟨fun b p d k fs0 hex => download_directory_skip listing b p d k fs0 hex,
   fun hmem => download_data_sword_not_mem listing pfx roi fs hname hmem,
   download_data_cont_mem listing pfx roi fs,
   fun hroi => download_data_roi_mem listing pfx roi fs hroi⟩

/-- Witness for C4 at concrete inputs: with the sword-patches file
present, its download is skipped while the continent-setfinder download is
still issued. -/
theorem claim_c4_witness :
    ("roi.json" : String) ≠ SWORD_PATCHES_NAME
    ∧ S3Call.download ("test" ++ "-config") SWORD_PATCHES_NAME SWORD_PATCHES
        ∉ (download_data (fun _ _ => []) "test" "roi.json" [SWORD_PATCHES]).1
    ∧ S3Call.download ("test" ++ "-config") "continent-setfinder.json"
        (pjoin EFS_DIR_INPUT "continent-setfinder.json")
        ∈ (download_data (fun _ _ => []) "test" "roi.json" [SWORD_PATCHES]).1 :=
  ⟨by decide,
   (claim_c4 (fun _ _ => []) "test" "roi.json" [SWORD_PATCHES]
     (by decide)).2.1 (by decide),
   (claim_c4 (fun _ _ => []) "test" "roi.json" [SWORD_PATCHES]
     (by decide)).2.2.1⟩

/-- C5: a prefix fetch whose listing returns zero objects issues zero
download calls, leaves the filesystem unchanged (it cannot raise: the
embedding is a total function), and logs exactly the empty-result
message. -/
theorem claim_c5
    (listing : String → String → List (Option (List String)))
    (b p d : String) (fs : List String)
    (h : collect_items (listing b p) = []) :
    (download_directory listing b p d fs).1 = []
    ∧ (download_directory listing b p d fs).2.1 = [LogMsg.noItems b p]
    ∧ (download_directory listing b p d fs).2.2 = fs := by
  simp only [download_directory, h]
  simp [process_items]

/-- Witness for C5 at a listing whose pages are `none` and an empty
`Contents` list. -/
theorem claim_c5_witness :
    collect_items ((fun _ _ => [none, some ([] : List String)]) "b" "gage") = []
    ∧ (download_directory (fun _ _ => [none, some []]) "b" "gage"
        "/mnt/input" ["/mnt/input/z"]).1 = []
    ∧ (download_directory (fun _ _ => [none, some []]) "b" "gage"
        "/mnt/input" ["/mnt/input/z"]).2.1 = [LogMsg.noItems "b" "gage"]
    ∧ (download_directory (fun _ _ => [none, some []]) "b" "gage"
        "/mnt/input" ["/mnt/input/z"]).2.2 = ["/mnt/input/z"] := by
  refine ⟨by decide, ?_⟩
  exact claim_c5 (fun _ _ => [none, some []]) "b" "gage" "/mnt/input"
    ["/mnt/input/z"] (by decide)

/-- C6: with prefix `"test"` and reachsubset `"roi_123.json"`, the run
issues a download of key `roi_123.json` from bucket `test-config`, an
upload of it to bucket `test-json` with the server-side-encryption
parameter set, a download of `continent-setfinder.json` from
`test-config`, and a matching upload of it to `test-json`; the buckets are
the prefix concatenated with the fixed suffixes `-config` and `-json`. -/
theorem claim_c6 :
    ∃ res,
      init_workflow (fun _ _ => []) "test" "roi_123.json" [] = Except.ok res
      ∧ S3Call.download ("test" ++ "-config") "roi_123.json"
          (pjoin EFS_DIR_INPUT "roi_123.json") ∈ res.1
      ∧ S3Call.upload (pjoin EFS_DIR_INPUT "roi_123.json") ("test" ++ "-json")
          "roi_123.json" (some "aws:kms") ∈ res.1
      ∧ S3Call.download ("test" ++ "-config") "continent-setfinder.json"
          (pjoin EFS_DIR_INPUT "continent-setfinder.json") ∈ res.1
      ∧ S3Call.upload (pjoin EFS_DIR_INPUT "continent-setfinder.json")
          ("test" ++ "-json") "continent-setfinder.json" (some "aws:kms") ∈ res.1 := by
  refine ⟨download_data (fun _ _ => []) "test" "roi_123.json" (setupRun []),
    ?_, ?_, ?_, ?_, ?_⟩
  · unfold init_workflow
    rw [set_up_efs_eq_ok]
    rfl
  · exact download_data_roi_mem _ _ _ _ (by decide)
  · exact download_data_roi_upload_mem _ _ _ _ (by decide)
  · exact download_data_cont_mem _ _ _ _
  · exact download_data_cont_upload_mem _ _ _ _

/-- C7 counterexample: the sword-patches fetch is a single-object fetch
(no paginated listing is involved), yet it is issued only when the local
file is absent — so "every single-object fetch is issued unconditionally,
without first checking whether a local file exists" fails. -/
theorem claim_c7_cex :
    S3Call.download ("p" ++ "-config") SWORD_PATCHES_NAME SWORD_PATCHES
      ∉ (download_data (fun _ _ => []) "p" "" [SWORD_PATCHES]).1
    ∧ S3Call.download ("p" ++ "-config") SWORD_PATCHES_NAME SWORD_PATCHES
      ∈ (download_data (fun _ _ => []) "p" "" []).1 := by decide

/-- C7 (amended): the reaches-of-interest and `continent-setfinder.json`
single-object fetches are issued unconditionally without an existence
check, while the sword-patches single-object fetch — like prefix
fetches — first checks for a pre-existing local file and is skipped when
it is present. -/
theorem claim_c7
    (listing : String → String → List (Option (List String)))
    (pfx roi : String) (fs : List String)
    (hroi : roi ≠ "") (hname : roi ≠ SWORD_PATCHES_NAME) :
    S3Call.download (pfx ++ "-config") roi (pjoin EFS_DIR_INPUT roi)
      ∈ (download_data listing pfx roi fs).1
    ∧ S3Call.download (pfx ++ "-config") "continent-setfinder.json"
        (pjoin EFS_DIR_INPUT "continent-setfinder.json")
        ∈ (download_data listing pfx roi fs).1
    ∧ (SWORD_PATCHES ∈ fs →
        S3Call.download (pfx ++ "-config") SWORD_PATCHES_NAME SWORD_PATCHES
          ∉ (download_data listing pfx roi fs).1)
    ∧ (SWORD_PATCHES ∉ fs →
        S3Call.download (pfx ++ "-config") SWORD_PATCHES_NAME SWORD_PATCHES
          ∈ (download_data listing pfx roi fs).1) :=
  ⟨download_data_roi_mem listing pfx roi fs hroi,
   download_data_cont_mem listing pfx roi fs,
   fun hmem => download_data_sword_not_mem listing pfx roi fs hname hmem,
   fun hmem => download_data_sword_mem listing pfx roi fs hname hmem⟩

/-- Witness for C7 at concrete inputs: with no sword-patches file present,
both the reaches-of-interest and the sword-patches downloads are
issued. -/
theorem claim_c7_witness :
    ("roi_9.json" : String) ≠ ""
    ∧ ("roi_9.json" : String) ≠ SWORD_PATCHES_NAME
    ∧ S3Call.download ("test" ++ "-config") "roi_9.json"
        (pjoin EFS_DIR_INPUT "roi_9.json")
        ∈ (download_data (fun _ _ => []) "test" "roi_9.json" []).1
    ∧ S3Call.download ("test" ++ "-config") SWORD_PATCHES_NAME SWORD_PATCHES
        ∈ (download_data (fun _ _ => []) "test" "roi_9.json" []).1 :=
  ⟨by decide, by decide,
   (claim_c7 (fun _ _ => []) "test" "roi_9.json" []
     (by decide) (by decide)).1,
   (claim_c7 (fun _ _ => []) "test" "roi_9.json" []
     (by decide) (by decide)).2.2.2 (by decide)⟩

/-- C8 counterexample: the parser declares two arguments, not three, and
no `--deletemap` flag exists in this revision. -/
theorem claim_c8_cex :
    create_args.length ≠ 3
    ∧ ∀ a ∈ create_args, a.long ≠ "--deletemap" := by decide

/-- C8 (amended): the command-line parser accepts exactly two flags and no
others: an environment prefix (`-p`/`--prefix`, string, no default) and a
reach-subset filename (`-r`/`--reachsubset`, string, defaulting to the
empty string); neither is a boolean toggle. -/
theorem claim_c8 :
    create_args.map (fun a => (a.short, a.long))
      = [("-p", "--prefix"), ("-r", "--reachsubset")]
    ∧ create_args.map (fun a => a.isFlag) = [false, false]
    ∧ create_args.map (fun a => a.dflt) = [none, some ""] := by decide

/-- C9: the State Purger issues no delete call on a bucket reporting zero
keys; with N keys spread over multiple listing pages it accumulates all of
them and issues exactly one bulk-delete call containing all N keys, then
logs each deleted key. -/
theorem claim_c9 (pages : List (List String)) (bucket : String) :
    (pages.flatten.length = 0 →
      (delete_map_state pages bucket).1 = []
      ∧ (delete_map_state pages bucket).2 = [])
    ∧ (pages.flatten.length ≠ 0 →
      (delete_map_state pages bucket).1
          = [S3Call.deleteObjects bucket pages.flatten]
      ∧ (delete_map_state pages bucket).2
          = pages.flatten.map (fun k => LogMsg.deleted bucket k)) := by
  constructor
  · intro h
    simp only [delete_map_state]
    rw [if_pos h]
    exact ⟨rfl, rfl⟩
  · intro h
    simp only [delete_map_state]
    rw [if_neg h]
    exact ⟨rfl, rfl⟩

/-- Witness for C9: three keys across two non-empty pages produce a
single bulk-delete call with all three keys, and an empty listing produces
no delete call. -/
theorem claim_c9_witness :
    (delete_map_state [["a"], [], ["b", "c"]] "test-map-state").1
      = [S3Call.deleteObjects "test-map-state" ["a", "b", "c"]]
    ∧ (delete_map_state ([] : List (List String)) "test-map-state").1 = [] :=
  ⟨((claim_c9 [["a"], [], ["b", "c"]] "test-map-state").2 (by decide)).1,
   ((claim_c9 [] "test-map-state").1 (by decide)).1⟩

/-- C10: in a prefix fetch, a listed key whose destination already exists
causes no filesystem modification at all for that key — the parent
directory creation is skipped along with the download — and exactly one
log line is emitted for it. -/
theorem claim_c10 (b d item : String) (rest fs : List String)
    (h : pjoin d item ∈ fs) :
    (process_items b d (item :: rest) fs).1 = (process_items b d rest fs).1
    ∧ (process_items b d (item :: rest) fs).2.1
        = LogMsg.notDownloading (pjoin d item) :: (process_items b d rest fs).2.1
    ∧ (process_items b d (item :: rest) fs).2.2 = (process_items b d rest fs).2.2 := by
  simp [process_items, if_pos h]

/-- Witness for C10 at a concrete pre-existing destination. -/
theorem claim_c10_witness :
    pjoin "/mnt/input" "gage/a.nc" ∈ ["/mnt/input/gage/a.nc"]
    ∧ ((process_items "b" "/mnt/input" ["gage/a.nc", "gage/b.nc"]
          ["/mnt/input/gage/a.nc"]).1
        = (process_items "b" "/mnt/input" ["gage/b.nc"]
            ["/mnt/input/gage/a.nc"]).1
      ∧ (process_items "b" "/mnt/input" ["gage/a.nc", "gage/b.nc"]
          ["/mnt/input/gage/a.nc"]).2.1
        = LogMsg.notDownloading (pjoin "/mnt/input" "gage/a.nc")
            :: (process_items "b" "/mnt/input" ["gage/b.nc"]
                ["/mnt/input/gage/a.nc"]).2.1
      ∧ (process_items "b" "/mnt/input" ["gage/a.nc", "gage/b.nc"]
          ["/mnt/input/gage/a.nc"]).2.2
        = (process_items "b" "/mnt/input" ["gage/b.nc"]
            ["/mnt/input/gage/a.nc"]).2.2) :=
  ⟨by decide,
   claim_c10 "b" "/mnt/input" "gage/a.nc" ["gage/b.nc"]
     ["/mnt/input/gage/a.nc"] (by decide)⟩
